import Mathlib

/-!
Verification of the trustz-web3-backend resilient scoring pipeline.

Shallow embedding of the Python modules `agents/github.py`, `agents/resume.py`,
`utils/score.py` and `utils/mock_data.py`.  Python dictionaries are modelled as
association lists with unique keys (`PyDict`), Python runtime values as the
inductive `PyVal`, Python floats as exact rationals (`ℚ`; NaN/Infinity are not
modelled), and each `random.randint`/`random.sample` draw of the mock-data
generator as an explicit parameter (`GithubDraws`, `ResumeDraws`).  A raised
exception inside a `try` block is modelled by `Option.none` of the enclosed
computation; network calls of the three LLM providers are modelled by an
`Oracle` giving, per provider, either the response text or a failure.
-/

namespace TrustZ

/-- Embedded Python runtime value as stored in the dictionaries the pipeline
manipulates.  Floats are modelled as exact rationals. -/
inductive PyVal where
  | vint (n : ℤ)
  | vfloat (q : ℚ)
  | vbool (b : Bool)
  | vstr (s : String)
  | vlist (xs : List PyVal)
  | vobj (fields : List (String × PyVal))
  | vnone
  deriving Repr

/-- Python dictionary with string keys, in insertion order, keys unique. -/
abbrev PyDict := List (String × PyVal)

/-- First value stored under key `k`, as Python `d[k]` / `d.get(k)`. -/
def lookup? (m : PyDict) (k : String) : Option PyVal :=
  match m with
  | [] => none
  | (k', v) :: rest => if k' = k then some v else lookup? rest k

/-- Python `k in d`. -/
def hasKey (m : PyDict) (k : String) : Bool :=
  match m with
  | [] => false
  | (k', _) :: rest => if k' = k then true else hasKey rest k

/-- Python `d[k] = v`: replace the value in place if the key exists,
otherwise append the new entry. -/
def setKey (m : PyDict) (k : String) (v : PyVal) : PyDict :=
  match m with
  | [] => [(k, v)]
  | (k', v') :: rest => if k' = k then (k', v) :: rest else (k', v') :: setKey rest k v

/-- Clamp an integer into [0, 100], as `max(0, min(100, n))`. -/
def clamp (n : ℤ) : ℤ := max 0 (min 100 n)

/-- Python `int()` applied to a float: truncation toward zero. -/
def pyTrunc (q : ℚ) : ℤ := q.num.tdiv q.den

/-- Python `round(x, 0)`: round to the nearest integer, ties to even. -/
def pyRound (q : ℚ) : ℤ :=
  if q - (⌊q⌋ : ℚ) < 1/2 then ⌊q⌋
  else if 1/2 < q - (⌊q⌋ : ℚ) then ⌊q⌋ + 1
  else if ⌊q⌋ % 2 = 0 then ⌊q⌋ else ⌊q⌋ + 1

/-- Digit characters to the natural number they denote. -/
def digitsToNat (ds : List Char) : ℕ :=
  ds.foldl (fun acc c => 10 * acc + (c.toNat - '0'.toNat)) 0

/-- Python `int(s)` on a string: optional surrounding whitespace, optional
sign, then a nonempty run of decimal digits; anything else raises `ValueError`
(modelled as `none`).  Digit-grouping underscores are not modelled. -/
def pyStrToInt? (s : String) : Option ℤ :=
  let cs := s.trim.data
  let signed : Bool × List Char :=
    match cs with
    | '-' :: rest => (true, rest)
    | '+' :: rest => (false, rest)
    | _ => (false, cs)
  match signed with
  | (neg, ds) =>
    if ds ≠ [] ∧ ds.all Char.isDigit then
      some (if neg then -(digitsToNat ds : ℤ) else (digitsToNat ds : ℤ))
    else none

/-- The three score fields required of both analysis sources. -/
def scoreFields : List String := ["Technical_Skills", "Reputation", "Activity"]

/-- One invocation's draws of `random.randint` inside `get_mock_github_score`. -/
structure GithubDraws where
  t : ℤ
  r : ℤ
  a : ℤ

/-- Ranges `randint(65, 95)`, `randint(60, 90)`, `randint(70, 95)` used by
`get_mock_github_score`. -/
def GithubDraws.valid (d : GithubDraws) : Prop :=
  65 ≤ d.t ∧ d.t ≤ 95 ∧ 60 ≤ d.r ∧ d.r ≤ 90 ∧ 70 ≤ d.a ∧ d.a ≤ 95

/-- Source `utils/mock_data.py`: `get_mock_github_score`. -/
def get_mock_github_score (d : GithubDraws) : PyDict :=
  [("Technical_Skills", .vint d.t),
   ("Reputation", .vint d.r),
   ("Activity", .vint d.a)]

/-- One invocation's random draws inside `get_mock_resume_score`: the three
`randint` score draws, the sampled skill list, and the years draw. -/
structure ResumeDraws where
  t : ℤ
  r : ℤ
  a : ℤ
  skills : List String
  years : ℤ

/-- Ranges used by `get_mock_resume_score`: `randint(70, 90)`,
`randint(65, 85)`, `randint(70, 90)`, `random.sample(skills, randint(3, 5))`,
`randint(2, 8)`. -/
def ResumeDraws.valid (d : ResumeDraws) : Prop :=
  70 ≤ d.t ∧ d.t ≤ 90 ∧ 65 ≤ d.r ∧ d.r ≤ 85 ∧ 70 ≤ d.a ∧ d.a ≤ 90 ∧
  3 ≤ d.skills.length ∧ d.skills.length ≤ 5 ∧ 2 ≤ d.years ∧ d.years ≤ 8

/-- Source `utils/mock_data.py`: `get_mock_resume_score`. -/
def get_mock_resume_score (d : ResumeDraws) : PyDict :=
  [("Technical_Skills", .vint d.t),
   ("Reputation", .vint d.r),
   ("Activity", .vint d.a),
   ("summary", .vstr ("Experienced developer with " ++ toString d.years ++ " years in "
      ++ String.intercalate ", " (d.skills.take 2))),
   ("keywords", .vlist (d.skills.map .vstr))]

/-- JSON whitespace, as accepted by `json.loads`. -/
def isJWs (c : Char) : Bool := c = ' ' || c = '\t' || c = '\n' || c = '\r'

/-- Drop leading JSON whitespace. -/
def skipWs : List Char → List Char
  | [] => []
  | c :: cs => if isJWs c then skipWs cs else c :: cs

/-- Value of one hexadecimal digit. -/
def hexVal? (c : Char) : Option ℕ :=
  if c.isDigit then some (c.toNat - 48)
  else if 'a' ≤ c && c ≤ 'f' then some (c.toNat - 87)
  else if 'A' ≤ c && c ≤ 'F' then some (c.toNat - 55)
  else none

/-- Body of a JSON string after the opening quote: resolve escapes into
UTF-16 code units, stop at the closing quote; raw control characters are
rejected as `json.loads` does in strict mode. -/
def parseJStr : List Char → List ℕ → Option (List ℕ × List Char)
  | [], _ => none
  | '"' :: rest, acc => some (acc.reverse, rest)
  | '\\' :: rest, acc =>
    match rest with
    | '"' :: r => parseJStr r (34 :: acc)
    | '\\' :: r => parseJStr r (92 :: acc)
    | '/' :: r => parseJStr r (47 :: acc)
    | 'b' :: r => parseJStr r (8 :: acc)
    | 'f' :: r => parseJStr r (12 :: acc)
    | 'n' :: r => parseJStr r (10 :: acc)
    | 'r' :: r => parseJStr r (13 :: acc)
    | 't' :: r => parseJStr r (9 :: acc)
    | 'u' :: h1 :: h2 :: h3 :: h4 :: r =>
      match hexVal? h1, hexVal? h2, hexVal? h3, hexVal? h4 with
      | some a, some b, some c, some d => parseJStr r ((((a * 16 + b) * 16 + c) * 16 + d) :: acc)
      | _, _, _, _ => none
    | _ => none
  | c :: rest, acc => if c.toNat < 32 then none else parseJStr rest (c.toNat :: acc)

/-- UTF-16 code units to characters, combining surrogate pairs as
`json.loads` does. -/
def utf16Chars : List ℕ → List Char
  | [] => []
  | [u] => [Char.ofNat u]
  | u :: u2 :: us =>
    if (0xD800 ≤ u && u < 0xDC00) && (0xDC00 ≤ u2 && u2 < 0xE000) then
      Char.ofNat (0x10000 + (u - 0xD800) * 0x400 + (u2 - 0xDC00)) :: utf16Chars us
    else Char.ofNat u :: utf16Chars (u2 :: us)

/-- Decoded string of a list of UTF-16 code units. -/
def utf16String (us : List ℕ) : String := String.mk (utf16Chars us)

/-- Maximal leading run of decimal digits. -/
def spanDigits (cs : List Char) : List Char × List Char := cs.span Char.isDigit

/-- Numeric token to a Python value: an `int` when there is neither a fraction
nor an exponent, a `float` (exact rational) otherwise.  The rational is the
single fraction mantissa · 10^±exponent, built with `mkRat` so that it reduces
inside the kernel. -/
def mkNum (neg : Bool) (ints fracs : List Char) (ex : Option (Bool × List Char)) : PyVal :=
  match fracs, ex with
  | [], none =>
    .vint (if neg then -(digitsToNat ints : ℤ) else (digitsToNat ints : ℤ))
  | _, _ =>
    let mantNum : ℤ := (digitsToNat ints : ℤ) * (10 : ℤ) ^ fracs.length + (digitsToNat fracs : ℤ)
    let sNum : ℤ := if neg then -mantNum else mantNum
    match ex with
    | none => .vfloat (mkRat sNum ((10 : ℕ) ^ fracs.length))
    | some (eneg, es) =>
      if eneg then .vfloat (mkRat sNum ((10 : ℕ) ^ fracs.length * (10 : ℕ) ^ digitsToNat es))
      else .vfloat (mkRat (sNum * (10 : ℤ) ^ digitsToNat es) ((10 : ℕ) ^ fracs.length))

/-- Optional exponent part of a JSON number, then the finished value. -/
def parseNumAfterFrac (neg : Bool) (ints fracs : List Char) (cs : List Char) :
    Option (PyVal × List Char) :=
  match cs with
  | c :: rest =>
    if c = 'e' || c = 'E' then
      let signedRest : Bool × List Char :=
        match rest with
        | '+' :: r => (false, r)
        | '-' :: r => (true, r)
        | _ => (false, rest)
      match signedRest with
      | (eneg, r1) =>
        match spanDigits r1 with
        | (es, r2) => if es = [] then none else some (mkNum neg ints fracs (some (eneg, es)), r2)
    else some (mkNum neg ints fracs none, c :: rest)
  | [] => some (mkNum neg ints fracs none, [])

/-- Optional fraction part of a JSON number. -/
def parseNumAfterInt (neg : Bool) (ints : List Char) (cs : List Char) :
    Option (PyVal × List Char) :=
  match cs with
  | '.' :: rest =>
    match spanDigits rest with
    | (fs, rest1) => if fs = [] then none else parseNumAfterFrac neg ints fs rest1
  | _ => parseNumAfterFrac neg ints [] cs

/-- JSON number per the strict grammar `json.loads` accepts: optional minus,
`0` or a nonzero-led digit run, optional fraction, optional exponent.
(`NaN`/`Infinity`, which `json.loads` also accepts, are not modelled.) -/
def parseNum (cs : List Char) : Option (PyVal × List Char) :=
  let negRest : Bool × List Char :=
    match cs with
    | '-' :: r => (true, r)
    | _ => (false, cs)
  match negRest with
  | (neg, cs1) =>
    match cs1 with
    | c :: rest =>
      if c = '0' then parseNumAfterInt neg [c] rest
      else if c.isDigit then
        match spanDigits rest with
        | (ds, rest1) => parseNumAfterInt neg (c :: ds) rest1
      else none
    | [] => none

mutual

/-- One JSON value, fuel-bounded; mirror of the recursive-descent scanner
behind `json.loads`. -/
def parseVal : ℕ → List Char → Option (PyVal × List Char)
  | 0, _ => none
  | fuel + 1, cs =>
    match skipWs cs with
    | [] => none
    | c :: rest =>
      if c = '\x7b' then parseObjRest fuel rest
      else if c = '[' then parseArrRest fuel rest
      else if c = '"' then
        match parseJStr rest [] with
        | some (us, rest') => some (.vstr (utf16String us), rest')
        | none => none
      else if c = 't' then
        match rest with
        | 'r' :: 'u' :: 'e' :: rest' => some (.vbool true, rest')
        | _ => none
      else if c = 'f' then
        match rest with
        | 'a' :: 'l' :: 's' :: 'e' :: rest' => some (.vbool false, rest')
        | _ => none
      else if c = 'n' then
        match rest with
        | 'u' :: 'l' :: 'l' :: rest' => some (.vnone, rest')
        | _ => none
      else parseNum (c :: rest)

/-- Object body just after the opening brace. -/
def parseObjRest : ℕ → List Char → Option (PyVal × List Char)
  | 0, _ => none
  | fuel + 1, cs =>
    match skipWs cs with
    | '\x7d' :: rest => some (.vobj [], rest)
    | other => parseMember fuel other []

/-- One `key : value` member and the members after it; duplicate keys keep
their first position and last value, as a Python dict built by assignment. -/
def parseMember : ℕ → List Char → PyDict → Option (PyVal × List Char)
  | 0, _, _ => none
  | fuel + 1, cs, acc =>
    match skipWs cs with
    | '"' :: rest =>
      match parseJStr rest [] with
      | some (us, rest1) =>
        match skipWs rest1 with
        | ':' :: rest2 =>
          match parseVal fuel rest2 with
          | some (v, rest3) =>
            match skipWs rest3 with
            | ',' :: rest4 => parseMember fuel rest4 (setKey acc (utf16String us) v)
            | '\x7d' :: rest4 => some (.vobj (setKey acc (utf16String us) v), rest4)
            | _ => none
          | none => none
        | _ => none
      | none => none
    | _ => none

/-- Array body just after the opening bracket. -/
def parseArrRest : ℕ → List Char → Option (PyVal × List Char)
  | 0, _ => none
  | fuel + 1, cs =>
    match skipWs cs with
    | ']' :: rest => some (.vlist [], rest)
    | other => parseElem fuel other []

/-- One array element and the elements after it. -/
def parseElem : ℕ → List Char → List PyVal → Option (PyVal × List Char)
  | 0, _, _ => none
  | fuel + 1, cs, acc =>
    match parseVal fuel cs with
    | some (v, rest) =>
      match skipWs rest with
      | ',' :: rest1 => parseElem fuel rest1 (acc ++ [v])
      | ']' :: rest1 => some (.vlist (acc ++ [v]), rest1)
      | _ => none
    | none => none

end

/-- Python `json.loads` on a string: one value, surrounding whitespace
allowed, nothing else.  Failure (`JSONDecodeError`) is `none`. -/
def pyJsonLoads (s : String) : Option PyVal :=
  match parseVal (s.data.length + 1) s.data with
  | some (v, rest) => if skipWs rest = [] then some v else none
  | none => none

/-- Suffix of the text from the first opening brace that still has a closing
brace somewhere after it; `none` when the regex `(\x7b.*\x7d)` cannot match. -/
def fromFirstBrace : List Char → Option (List Char)
  | [] => none
  | c :: cs =>
    if c = '\x7b' && cs.contains '\x7d' then some (c :: cs) else fromFirstBrace cs

/-- Truncate just after the last closing brace. -/
def upToLastClose (cs : List Char) : List Char :=
  ((cs.reverse.dropWhile (fun c => c != '\x7d')).reverse)

/-- Effect of `re.search(r'(\x7b.*\x7d)', s, re.DOTALL)` followed by
`s = match.group(1)` when it matches: the span from the first opening brace
to the last closing brace; the text is left unchanged when there is no match. -/
def extractBraces (s : String) : String :=
  match fromFirstBrace s.data with
  | some cs => String.mk (upToLastClose cs)
  | none => s

/-- Process configuration read from the environment at module load. -/
structure Config where
  openai_api_key : Option String
  deepseek_api_key : Option String
  openrouter_api_key : Option String
  use_mock : Bool

/-- Outcome of the single network call to each provider for one request:
`some text` is a successful chat completion, `none` any transport or API
failure (modelled; the exception is caught by the per-provider handler). -/
structure Oracle where
  openrouter : Option String
  deepseek : Option String
  openai : Option String

/-- Python `str.strip()` of a response payload. -/
def pyStrip (s : String) : String := s.trim

/-- Characters matched by the regex class `\s` (ASCII range). -/
def pyIsSpace (c : Char) : Bool :=
  c = ' ' || c = '\t' || c = '\n' || c = '\r' || c = '\x0b' || c = '\x0c'

/-- Characters of the regex class `["\s:]` separating a field name from its
value in the forgiving extraction patterns. -/
def isSepClass (c : Char) : Bool := c = '"' || pyIsSpace c || c = ':'

/-- Either quote character of the regex class matching quotes. -/
def isQuoteChar (c : Char) : Bool := c = '"' || c = '\''

/-- Consume a literal character sequence; `none` when the text differs. -/
def matchLit : List Char → List Char → Option (List Char)
  | [], cs => some cs
  | _ :: _, [] => none
  | l :: ls, c :: cs => if c = l then matchLit ls cs else none

/-- Regex `Technical_?Skills` at the current position: the optional
underscore is tried greedily first, as the engine backtracks. -/
def matchTechName (cs : List Char) : Option (List Char) :=
  match matchLit "Technical".data cs with
  | none => none
  | some cs1 =>
    match cs1 with
    | '_' :: cs2 =>
      match matchLit "Skills".data cs2 with
      | some r => some r
      | none => matchLit "Skills".data cs1
    | _ => matchLit "Skills".data cs1

/-- Regex `["\s:]+(\d+)` at the current position: at least one separator,
then the first digit run, captured as a number.  The separator run is
maximal; backtracking cannot help since no separator is a digit. -/
def matchSepDigits (cs : List Char) : Option ℤ :=
  match cs.span isSepClass with
  | (seps, cs1) =>
    if seps = [] then none
    else
      match spanDigits cs1 with
      | (digs, _) => if digs = [] then none else some (digitsToNat digs : ℤ)

/-- Leftmost position where the field-name matcher followed by
`["\s:]+(\d+)` succeeds, as `re.search`; fuel bounds the scan. -/
def searchScore (name : List Char → Option (List Char)) : ℕ → List Char → Option ℤ
  | 0, _ => none
  | _ + 1, [] => none
  | fuel + 1, c :: rest =>
    match name (c :: rest) with
    | some after =>
      match matchSepDigits after with
      | some v => some v
      | none => searchScore name fuel rest
    | none => searchScore name fuel rest

/-- Score captured by `re.search(r'Technical_?Skills["\s:]+(\d+)', text)`. -/
def findTechScore (s : String) : Option ℤ :=
  searchScore matchTechName (s.data.length + 1) s.data

/-- Score captured by `re.search(name + r'["\s:]+(\d+)', text)` for the
plain field names `Reputation` and `Activity`. -/
def findFieldScore (lit : String) (s : String) : Option ℤ :=
  searchScore (matchLit lit.data) (s.data.length + 1) s.data

/-- Regex `["\']([^"\']+)["\']` at the current position: a quote, a maximal
nonempty run without quotes (the capture), and a closing quote of either
kind. -/
def matchQuoted (cs : List Char) : Option String :=
  match cs with
  | [] => none
  | q :: rest =>
    if isQuoteChar q then
      match rest.span (fun c => !(isQuoteChar c)) with
      | (content, rest') =>
        if content = [] then none
        else
          match rest' with
          | q2 :: _ => if isQuoteChar q2 then some (String.mk content) else none
          | [] => none
    else none

/-- Quoted capture after the greedy separator run `["\s:]+`, backtracking
from the longest run down to one character: the double quote belongs to the
separator class, so the engine may give the run's last quote back to serve
as the opening quote. -/
def trySepLen (cs : List Char) : ℕ → Option String
  | 0 => none
  | k + 1 =>
    match matchQuoted (cs.drop (k + 1)) with
    | some s => some s
    | none => trySepLen cs k

/-- Regex `["\s:]+["\']([^"\']+)["\']` at the current position. -/
def sepThenQuoted (cs : List Char) : Option String :=
  match cs.span isSepClass with
  | (seps, _) => trySepLen cs seps.length

/-- Capture of `re.search(r'summary["\s:]+["\']([^"\']+)["\']', text)`. -/
def searchSummary : ℕ → List Char → Option String
  | 0, _ => none
  | _ + 1, [] => none
  | fuel + 1, c :: rest =>
    match matchLit "summary".data (c :: rest) with
    | some after =>
      match sepThenQuoted after with
      | some v => some v
      | none => searchSummary fuel rest
    | none => searchSummary fuel rest

/-- Capture of `summary` over the whole text. -/
def findSummary (s : String) : Option String :=
  searchSummary (s.data.length + 1) s.data

/-- Regex `keywords["\s:]+\[(.*?)\]` with DOTALL at the current position:
separators, an opening bracket, then the lazy capture up to the first
closing bracket. -/
def matchKeywordsAt (cs : List Char) : Option (List Char) :=
  match cs.span isSepClass with
  | (seps, cs1) =>
    if seps = [] then none
    else
      match cs1 with
      | '[' :: rest =>
        match rest.span (fun c => c != ']') with
        | (content, rest') =>
          match rest' with
          | ']' :: _ => some content
          | _ => none
      | _ => none

/-- Leftmost match of the keywords pattern, as `re.search`. -/
def searchKeywords : ℕ → List Char → Option (List Char)
  | 0, _ => none
  | _ + 1, [] => none
  | fuel + 1, c :: rest =>
    match matchLit "keywords".data (c :: rest) with
    | some after =>
      match matchKeywordsAt after with
      | some v => some v
      | none => searchKeywords fuel rest
    | none => searchKeywords fuel rest

/-- All captures of `re.findall(r'["\']([^"\']+)["\']', text)`, in order,
non-overlapping, advancing one character after a failed position. -/
def findAllQuoted : ℕ → List Char → List String
  | 0, _ => []
  | _ + 1, [] => []
  | fuel + 1, c :: rest =>
    if isQuoteChar c then
      match rest.span (fun ch => !(isQuoteChar ch)) with
      | (content, rest') =>
        if content = [] then findAllQuoted fuel rest
        else
          match rest' with
          | _ :: rest'' => String.mk content :: findAllQuoted fuel rest''
          | [] => []
    else findAllQuoted fuel rest

/-- Keyword list captured from the whole text: the bracketed span after the
literal key, then every quoted token inside it. -/
def findKeywords (s : String) : Option (List String) :=
  (searchKeywords (s.data.length + 1) s.data).map
    (fun content => findAllQuoted (content.length + 1) content)

namespace Github

/-- Source `agents/github.py`: `extract_values_from_text`. -/
def extract_values_from_text (s : String) : PyDict :=
  [("Technical_Skills", .vint ((findTechScore s).getD 50)),
   ("Reputation", .vint ((findFieldScore "Reputation" s).getD 50)),
   ("Activity", .vint ((findFieldScore "Activity" s).getD 50))]

/-- First validation loop of `process_llm_response`: default each missing
required score field to 50. -/
def ensureScores (m : PyDict) : PyDict :=
  let m1 := if hasKey m "Technical_Skills" then m else setKey m "Technical_Skills" (.vint 50)
  let m2 := if hasKey m1 "Reputation" then m1 else setKey m1 "Reputation" (.vint 50)
  if hasKey m2 "Activity" then m2 else setKey m2 "Activity" (.vint 50)

/-- Per-field coercion of the second loop: a string is parsed as an integer
(parse failure becomes 50), numbers pass through `int()` truncation, and any
other value makes `int()` raise `TypeError` (`none`). -/
def coerceScore : PyVal → Option ℤ
  | .vstr s => some ((pyStrToInt? s).getD 50)
  | .vint n => some n
  | .vbool b => some (if b then 1 else 0)
  | .vfloat q => some (pyTrunc q)
  | _ => none

/-- One iteration of the range loop: `result[f] = max(0, min(100, int(result[f])))`. -/
def clampScore (m : PyDict) (f : String) : Option PyDict :=
  match lookup? m f with
  | some v => (coerceScore v).map (fun n => setKey m f (.vint (clamp n)))
  | none => none

/-- The range loop over the three required fields. -/
def clampScores (m : PyDict) : Option PyDict := do
  let m1 ← clampScore m "Technical_Skills"
  let m2 ← clampScore m1 "Reputation"
  clampScore m2 "Activity"

/-- Source `agents/github.py`: `process_llm_response`.  A JSON object is validated
and clamped; a non-object JSON value makes the validation loops raise, which
the outer handler converts to mock data; JSON failure falls back to regex
extraction on the brace-extracted text. -/
def process_llm_response (d : GithubDraws) (result_text : String) : PyDict :=
  let t := extractBraces result_text
  match pyJsonLoads t with
  | some (.vobj m) =>
    match clampScores (ensureScores m) with
    | some r => r
    | none => get_mock_github_score d
  | some _ => get_mock_github_score d
  | none =>
    match clampScores (ensureScores (extract_values_from_text t)) with
    | some r => r
    | none => get_mock_github_score d

/-- Terminal step of the provider chain: mock data. -/
def afterProviders (d : GithubDraws) (calls : List String) : PyDict × List String :=
  (get_mock_github_score d, calls)

/-- OpenAI attempt: skipped without a key; a successful response is processed
and returned, a failure falls through to the mock terminal step. -/
def tryOpenAI (cfg : Config) (ora : Oracle) (d : GithubDraws) (calls : List String) :
    PyDict × List String :=
  match cfg.openai_api_key with
  | none => afterProviders d calls
  | some _ =>
    match ora.openai with
    | some text => (process_llm_response d (pyStrip text), calls ++ ["OpenAI"])
    | none => afterProviders d (calls ++ ["OpenAI"])

/-- Direct Deepseek attempt, falling through to OpenAI. -/
def tryDeepseek (cfg : Config) (ora : Oracle) (d : GithubDraws) (calls : List String) :
    PyDict × List String :=
  match cfg.deepseek_api_key with
  | none => tryOpenAI cfg ora d calls
  | some _ =>
    match ora.deepseek with
    | some text => (process_llm_response d (pyStrip text), calls ++ ["Deepseek"])
    | none => tryOpenAI cfg ora d (calls ++ ["Deepseek"])

/-- OpenRouter attempt, tried first, falling through to Deepseek. -/
def tryOpenRouter (cfg : Config) (ora : Oracle) (d : GithubDraws) (calls : List String) :
    PyDict × List String :=
  match cfg.openrouter_api_key with
  | none => tryDeepseek cfg ora d calls
  | some _ =>
    match ora.openrouter with
    | some text => (process_llm_response d (pyStrip text), calls ++ ["OpenRouter"])
    | none => tryDeepseek cfg ora d (calls ++ ["OpenRouter"])

/-- Per-field normalization of the pass-through branch: a non-numeric value
is defaulted to 50 with a warning, then `max(0, min(100, int(v)))`; Python
booleans count as numbers. -/
def passThroughVal : PyVal → ℤ
  | .vint n => clamp n
  | .vfloat q => clamp (pyTrunc q)
  | .vbool b => clamp (if b then 1 else 0)
  | _ => clamp 50

/-- Pass-through branch of `analyze_github`: rebuild the dictionary from the
three required fields only, then validate and normalize each. -/
def passThrough (gd : PyDict) : PyDict :=
  [("Technical_Skills", .vint (passThroughVal ((lookup? gd "Technical_Skills").getD .vnone))),
   ("Reputation", .vint (passThroughVal ((lookup? gd "Reputation").getD .vnone))),
   ("Activity", .vint (passThroughVal ((lookup? gd "Activity").getD .vnone)))]

/-- Source `agents/github.py`: `analyze_github`, paired with the list of providers
actually invoked.  The pass-through check precedes the mock-mode check, which
precedes the provider chain. -/
def analyze_github (cfg : Config) (ora : Oracle) (d : GithubDraws) (github_data : PyDict) :
    PyDict × List String :=
  if scoreFields.all (hasKey github_data) then (passThrough github_data, [])
  else if cfg.use_mock then (get_mock_github_score d, [])
  else tryOpenRouter cfg ora d []

end Github

namespace Resume

/-- Source `agents/resume.py`: `extract_values_from_text`. -/
def extract_values_from_text (s : String) : PyDict :=
  [("Technical_Skills", .vint ((findTechScore s).getD 50)),
   ("Reputation", .vint ((findFieldScore "Reputation" s).getD 50)),
   ("Activity", .vint ((findFieldScore "Activity" s).getD 50)),
   ("summary", .vstr ((findSummary s).getD "Extracted from non-JSON response")),
   ("keywords", .vlist (((findKeywords s).getD []).map .vstr))]

/-- First validation loop of the resume `process_llm_response`: default each
missing required field. -/
def ensureFields (m : PyDict) : PyDict :=
  let m1 := if hasKey m "Technical_Skills" then m else setKey m "Technical_Skills" (.vint 50)
  let m2 := if hasKey m1 "Reputation" then m1 else setKey m1 "Reputation" (.vint 50)
  let m3 := if hasKey m2 "Activity" then m2 else setKey m2 "Activity" (.vint 50)
  let m4 := if hasKey m3 "summary" then m3 else setKey m3 "summary" (.vstr "Resume analysis incomplete")
  if hasKey m4 "keywords" then m4 else setKey m4 "keywords" (.vlist [])

/-- Range line of the resume variant, which unlike the GitHub variant has no
`int()` around the value: `result[f] = max(0, min(100, result[f]))`.  An
in-range float therefore stays a float; `min`/`max` return their integer
bound argument when it wins or ties; non-numeric values raise `TypeError`
(`none`). -/
def clampVal : PyVal → Option PyVal
  | .vstr s => some (.vint (clamp ((pyStrToInt? s).getD 50)))
  | .vint n => some (.vint (clamp n))
  | .vbool b => some (if b then .vbool true else .vint 0)
  | .vfloat q => some (if q ≤ 0 then .vint 0 else if 100 ≤ q then .vint 100 else .vfloat q)
  | _ => none

/-- One iteration of the resume range loop. -/
def clampScore (m : PyDict) (f : String) : Option PyDict :=
  match lookup? m f with
  | some v => (clampVal v).map (setKey m f)
  | none => none

/-- The resume range loop over the three score fields. -/
def clampScores (m : PyDict) : Option PyDict := do
  let m1 ← clampScore m "Technical_Skills"
  let m2 ← clampScore m1 "Reputation"
  clampScore m2 "Activity"

/-- Source `agents/resume.py`: `process_llm_response`. -/
def process_llm_response (d : ResumeDraws) (result_text : String) : PyDict :=
  let t := extractBraces result_text
  match pyJsonLoads t with
  | some (.vobj m) =>
    match clampScores (ensureFields m) with
    | some r => r
    | none => get_mock_resume_score d
  | some _ => get_mock_resume_score d
  | none =>
    match clampScores (ensureFields (extract_values_from_text t)) with
    | some r => r
    | none => get_mock_resume_score d

/-- Terminal step of the resume provider chain: mock data. -/
def afterProviders (d : ResumeDraws) (calls : List String) : PyDict × List String :=
  (get_mock_resume_score d, calls)

/-- OpenAI attempt of the resume chain. -/
def tryOpenAI (cfg : Config) (ora : Oracle) (d : ResumeDraws) (calls : List String) :
    PyDict × List String :=
  match cfg.openai_api_key with
  | none => afterProviders d calls
  | some _ =>
    match ora.openai with
    | some text => (process_llm_response d (pyStrip text), calls ++ ["OpenAI"])
    | none => afterProviders d (calls ++ ["OpenAI"])

/-- Direct Deepseek attempt of the resume chain. -/
def tryDeepseek (cfg : Config) (ora : Oracle) (d : ResumeDraws) (calls : List String) :
    PyDict × List String :=
  match cfg.deepseek_api_key with
  | none => tryOpenAI cfg ora d calls
  | some _ =>
    match ora.deepseek with
    | some text => (process_llm_response d (pyStrip text), calls ++ ["Deepseek"])
    | none => tryOpenAI cfg ora d (calls ++ ["Deepseek"])

/-- OpenRouter attempt of the resume chain, tried first. -/
def tryOpenRouter (cfg : Config) (ora : Oracle) (d : ResumeDraws) (calls : List String) :
    PyDict × List String :=
  match cfg.openrouter_api_key with
  | none => tryDeepseek cfg ora d calls
  | some _ =>
    match ora.openrouter with
    | some text => (process_llm_response d (pyStrip text), calls ++ ["OpenRouter"])
    | none => tryDeepseek cfg ora d (calls ++ ["OpenRouter"])

/-- Fixed result for an empty resume. -/
def emptyResult : PyDict :=
  [("Technical_Skills", .vint 50),
   ("Reputation", .vint 50),
   ("Activity", .vint 50),
   ("summary", .vstr "No resume provided for analysis"),
   ("keywords", .vlist [])]

/-- Source `agents/resume.py`: `analyze_resume`, paired with the list of providers
actually invoked.  The mock-mode check precedes the empty-text check. -/
def analyze_resume (cfg : Config) (ora : Oracle) (d : ResumeDraws) (resume_text : String) :
    PyDict × List String :=
  if cfg.use_mock then (get_mock_resume_score d, [])
  else if resume_text = "" then (emptyResult, [])
  else tryOpenRouter cfg ora d []

end Resume

/-- Value a provider score dictionary yields for one field through `.get(f, 0)`. -/
def getScore (m : PyDict) (f : String) : PyVal := (lookup? m f).getD (.vint 0)

/-- Numeric reading of a value as used in the weighted sum; any other type
makes the multiplication by a float weight raise `TypeError` (`none`). -/
def pyNumVal? : PyVal → Option ℚ
  | .vint n => some (n : ℚ)
  | .vfloat q => some q
  | .vbool b => some (if b then 1 else 0)
  | _ => none

/-- Numeric readings of the six extracted values; `none` as soon as one of
them makes the weighted sum raise. -/
def trustNums? (github_score resume_score : PyDict) : Option (ℚ × ℚ × ℚ × ℚ × ℚ × ℚ) := do
  let gt ← pyNumVal? (getScore github_score "Technical_Skills")
  let gr ← pyNumVal? (getScore github_score "Reputation")
  let ga ← pyNumVal? (getScore github_score "Activity")
  let rt ← pyNumVal? (getScore resume_score "Technical_Skills")
  let rr ← pyNumVal? (getScore resume_score "Reputation")
  let ra ← pyNumVal? (getScore resume_score "Activity")
  pure (gt, gr, ga, rt, rr, ra)

/-- Source `utils/score.py`: `calculate_trust_score`.  Missing fields default to 0;
the weighted sum is rounded half-to-even and clamped; any exception inside
the `try` yields the neutral default 50. -/
def calculate_trust_score (github_score resume_score : PyDict) : ℤ :=
  match trustNums? github_score resume_score with
  | some (gt, gr, ga, rt, rr, ra) =>
    clamp (pyRound (gt * 0.25 + gr * 0.15 + ga * 0.2 + rt * 0.2 + rr * 0.1 + ra * 0.1))
  | none => 50

/-- Projection used to tell two dictionaries apart by one integer field. -/
def intScoreOf (m : PyDict) (f : String) : ℤ :=
  match lookup? m f with
  | some (.vint n) => n
  | _ => -1

/-- Projection used to tell two dictionaries apart by one string field. -/
def strFieldOf (m : PyDict) (f : String) : String :=
  match lookup? m f with
  | some (.vstr s) => s
  | _ => ""

/-- Length of the keywords list of a result, 0 when absent or not a list. -/
def kwLen (m : PyDict) : ℕ :=
  match lookup? m "keywords" with
  | some (.vlist l) => l.length
  | _ => 0

/-- Every required score field is present with an integer value in [0, 100]. -/
def wellFormedScores (m : PyDict) : Prop :=
  ∀ f ∈ scoreFields, ∃ n : ℤ, lookup? m f = some (.vint n) ∧ 0 ≤ n ∧ n ≤ 100

theorem lookup?_setKey_self (m : PyDict) (k : String) (v : PyVal) :
    lookup? (setKey m k v) k = some v := by
  induction m with
  | nil => simp [setKey, lookup?]
  | cons hd tl ih =>
    obtain ⟨k', v'⟩ := hd
    by_cases h : k' = k
    · simp [setKey, lookup?, h]
    · simp [setKey, lookup?, h, ih]

theorem lookup?_setKey_ne (m : PyDict) (k : String) (v : PyVal) (k' : String) (h : k' ≠ k) :
    lookup? (setKey m k v) k' = lookup? m k' := by
  have h' : k ≠ k' := Ne.symm h
  induction m with
  | nil => simp [setKey, lookup?, h']
  | cons hd tl ih =>
    obtain ⟨k0, v0⟩ := hd
    by_cases h0 : k0 = k
    · subst h0
      simp [setKey, lookup?, h']
    · simp [setKey, lookup?, h0, ih]

theorem hasKey_eq_isSome (m : PyDict) (k : String) :
    hasKey m k = (lookup? m k).isSome := by
  induction m with
  | nil => simp [hasKey, lookup?]
  | cons hd tl ih =>
    obtain ⟨k0, v0⟩ := hd
    by_cases h0 : k0 = k <;> simp [hasKey, lookup?, h0, ih]

theorem hasKey_of_lookup {m : PyDict} {k : String} {v : PyVal}
    (h : lookup? m k = some v) : hasKey m k = true := by
  rw [hasKey_eq_isSome, h]
  rfl

theorem exists_lookup_of_hasKey {m : PyDict} {k : String}
    (h : hasKey m k = true) : ∃ v, lookup? m k = some v := by
  rw [hasKey_eq_isSome] at h
  exact Option.isSome_iff_exists.mp h

theorem clamp_nonneg (n : ℤ) : 0 ≤ clamp n := le_max_left 0 _

theorem clamp_le_100 (n : ℤ) : clamp n ≤ 100 :=
  max_le (by norm_num) (min_le_left 100 n)

theorem clamp_of_range {n : ℤ} (h0 : 0 ≤ n) (h1 : n ≤ 100) : clamp n = n := by
  unfold clamp
  omega

theorem passThroughVal_range (v : PyVal) :
    0 ≤ Github.passThroughVal v ∧ Github.passThroughVal v ≤ 100 := by
  cases v <;> exact ⟨clamp_nonneg _, clamp_le_100 _⟩

theorem getScore_setKey_zero (m : PyDict) (f : String) (h : lookup? m f = none) (f' : String) :
    getScore (setKey m f (.vint 0)) f' = getScore m f' := by
  by_cases hf : f' = f
  · subst hf
    rw [getScore, getScore, lookup?_setKey_self, h]
    rfl
  · rw [getScore, getScore, lookup?_setKey_ne _ _ _ _ hf]

theorem pyRound_round_down (q : ℚ) (n : ℤ) (h1 : (n : ℚ) ≤ q) (h2 : q < (n : ℚ) + 1/2) :
    pyRound q = n := by
  have hf : ⌊q⌋ = n := Int.floor_eq_iff.mpr ⟨h1, by linarith⟩
  unfold pyRound
  rw [hf, if_pos (by linarith)]

/-- The two score dictionaries used by the spec's aggregation example. -/
def gEx : PyDict :=
  [("Technical_Skills", .vint 85), ("Reputation", .vint 72), ("Activity", .vint 90)]

/-- Resume half of the spec's aggregation example. -/
def rEx : PyDict :=
  [("Technical_Skills", .vint 80), ("Reputation", .vint 75), ("Activity", .vint 85)]

/-- C2: whenever the six score fields of the two input maps hold numbers,
`calculate_trust_score` returns the weighted sum
0.25·github.Technical_Skills + 0.15·github.Reputation + 0.20·github.Activity
+ 0.20·resume.Technical_Skills + 0.10·resume.Reputation +
0.10·resume.Activity, rounded (ties to even, as Python `round`) and clamped
into [0, 100]. -/
theorem trust_score_formula (g r : PyDict) (gt gr ga rt rr ra : ℚ)
    (h1 : (lookup? g "Technical_Skills").bind pyNumVal? = some gt)
    (h2 : (lookup? g "Reputation").bind pyNumVal? = some gr)
    (h3 : (lookup? g "Activity").bind pyNumVal? = some ga)
    (h4 : (lookup? r "Technical_Skills").bind pyNumVal? = some rt)
    (h5 : (lookup? r "Reputation").bind pyNumVal? = some rr)
    (h6 : (lookup? r "Activity").bind pyNumVal? = some ra) :
    calculate_trust_score g r =
      clamp (pyRound (0.25 * gt + 0.15 * gr + 0.2 * ga + 0.2 * rt + 0.1 * rr + 0.1 * ra)) := by
  obtain ⟨v1, hv1, hn1⟩ := Option.bind_eq_some.mp h1
  obtain ⟨v2, hv2, hn2⟩ := Option.bind_eq_some.mp h2
  obtain ⟨v3, hv3, hn3⟩ := Option.bind_eq_some.mp h3
  obtain ⟨v4, hv4, hn4⟩ := Option.bind_eq_some.mp h4
  obtain ⟨v5, hv5, hn5⟩ := Option.bind_eq_some.mp h5
  obtain ⟨v6, hv6, hn6⟩ := Option.bind_eq_some.mp h6
  have e : trustNums? g r = some (gt, gr, ga, rt, rr, ra) := by
    simp [trustNums?, getScore, hv1, hn1, hv2, hn2, hv3, hn3, hv4, hn4, hv5, hn5, hv6, hn6]
  rw [calculate_trust_score, e]
  have harg : gt * 0.25 + gr * 0.15 + ga * 0.2 + rt * 0.2 + rr * 0.1 + ra * 0.1
      = 0.25 * gt + 0.15 * gr + 0.2 * ga + 0.2 * rt + 0.1 * rr + 0.1 * ra := by ring
  show clamp (pyRound (gt * 0.25 + gr * 0.15 + ga * 0.2 + rt * 0.2 + rr * 0.1 + ra * 0.1)) = _
  rw [harg]

/-- Witness for C2: the spec's aggregation example evaluates to 82. -/
theorem trust_score_formula_example : calculate_trust_score gEx rEx = 82 := by
  have h := trust_score_formula gEx rEx ((85 : ℤ) : ℚ) ((72 : ℤ) : ℚ) ((90 : ℤ) : ℚ)
    ((80 : ℤ) : ℚ) ((75 : ℤ) : ℚ) ((85 : ℤ) : ℚ) rfl rfl rfl rfl rfl rfl
  rw [h]
  have e82 : pyRound (0.25 * ((85 : ℤ) : ℚ) + 0.15 * ((72 : ℤ) : ℚ) + 0.2 * ((90 : ℤ) : ℚ)
      + 0.2 * ((80 : ℤ) : ℚ) + 0.1 * ((75 : ℤ) : ℚ) + 0.1 * ((85 : ℤ) : ℚ)) = 82 := by
    apply pyRound_round_down
    · push_cast
      norm_num
    · push_cast
      norm_num
  rw [e82]
  decide

/-- C4: `calculate_trust_score` is total.  A missing score field is read as
0 — inserting an explicit 0 entry changes nothing — and the weighted
computation proceeds; a non-numeric value among the six read fields makes
the function return the neutral default 50 instead of raising. -/
theorem trust_score_total (g r : PyDict) :
    (∀ f, lookup? g f = none →
      calculate_trust_score g r = calculate_trust_score (setKey g f (.vint 0)) r)
  ∧ (∀ f, lookup? r f = none →
      calculate_trust_score g r = calculate_trust_score g (setKey r f (.vint 0)))
  ∧ ((pyNumVal? (getScore g "Technical_Skills") = none ∨
      pyNumVal? (getScore g "Reputation") = none ∨
      pyNumVal? (getScore g "Activity") = none ∨
      pyNumVal? (getScore r "Technical_Skills") = none ∨
      pyNumVal? (getScore r "Reputation") = none ∨
      pyNumVal? (getScore r "Activity") = none) →
      calculate_trust_score g r = 50) := by
  refine ⟨?_, ?_, ?_⟩
  · intro f h
    unfold calculate_trust_score trustNums?
    simp only [getScore_setKey_zero g f h]
  · intro f h
    unfold calculate_trust_score trustNums?
    simp only [getScore_setKey_zero r f h]
  · intro h
    unfold calculate_trust_score
    cases ht : trustNums? g r with
    | none => rfl
    | some t =>
      exfalso
      unfold trustNums? at ht
      obtain ⟨gt, e1, ht⟩ := Option.bind_eq_some.mp ht
      obtain ⟨gr, e2, ht⟩ := Option.bind_eq_some.mp ht
      obtain ⟨ga, e3, ht⟩ := Option.bind_eq_some.mp ht
      obtain ⟨rt, e4, ht⟩ := Option.bind_eq_some.mp ht
      obtain ⟨rr, e5, ht⟩ := Option.bind_eq_some.mp ht
      obtain ⟨ra, e6, ht⟩ := Option.bind_eq_some.mp ht
      rcases h with h | h | h | h | h | h <;> simp_all

/-- Witness for C4: a map missing `Technical_Skills` aggregates as if the
field were 0, and a map with a string score aggregates to 50. -/
theorem trust_score_total_witness :
    calculate_trust_score [("Reputation", .vint 80)] [] =
      calculate_trust_score (setKey [("Reputation", .vint 80)] "Technical_Skills" (.vint 0)) []
  ∧ calculate_trust_score [("Technical_Skills", .vstr "n/a")] [("Reputation", .vint 1)] = 50 :=
  ⟨(trust_score_total [("Reputation", .vint 80)] []).1 "Technical_Skills" rfl,
   (trust_score_total [("Technical_Skills", .vstr "n/a")] [("Reputation", .vint 1)]).2.2
      (Or.inl rfl)⟩

/-- Configuration with mock mode on and no credentials. -/
def cfgMock : Config := ⟨none, none, none, true⟩

/-- Configuration with mock mode off and no credentials. -/
def cfgNoCred : Config := ⟨none, none, none, false⟩

/-- Oracle for a request where every provider call would fail. -/
def oraNone : Oracle := ⟨none, none, none⟩

/-- Concrete draw of the GitHub mock generator. -/
def d65 : GithubDraws := ⟨65, 60, 70⟩

/-- Concrete draw of the resume mock generator. -/
def dRes : ResumeDraws := ⟨70, 65, 70, ["Python", "SQL", "Go"], 3⟩

/-- GitHub input that already carries the three score fields. -/
def gd0 : PyDict :=
  [("Technical_Skills", .vint 10), ("Reputation", .vint 20), ("Activity", .vint 30)]

theorem scoreFields_all_hasKey {gd : PyDict} {vt vr va : PyVal}
    (ht : lookup? gd "Technical_Skills" = some vt)
    (hr : lookup? gd "Reputation" = some vr)
    (ha : lookup? gd "Activity" = some va) :
    scoreFields.all (hasKey gd) = true := by
  simp [scoreFields, hasKey_of_lookup ht, hasKey_of_lookup hr, hasKey_of_lookup ha]

/-- C7: when the GitHub input already carries the three required fields with
integer values inside [0, 100], `analyze_github` returns exactly those three
fields unchanged and invokes no provider. -/
theorem passthrough_exact (cfg : Config) (ora : Oracle) (d : GithubDraws) (gd : PyDict)
    (t r a : ℤ)
    (ht : lookup? gd "Technical_Skills" = some (.vint t)) (ht0 : 0 ≤ t) (ht1 : t ≤ 100)
    (hr : lookup? gd "Reputation" = some (.vint r)) (hr0 : 0 ≤ r) (hr1 : r ≤ 100)
    (ha : lookup? gd "Activity" = some (.vint a)) (ha0 : 0 ≤ a) (ha1 : a ≤ 100) :
    Github.analyze_github cfg ora d gd =
      ([("Technical_Skills", .vint t), ("Reputation", .vint r), ("Activity", .vint a)], []) := by
  unfold Github.analyze_github
  rw [scoreFields_all_hasKey ht hr ha]
  unfold Github.passThrough
  rw [ht, hr, ha]
  simp [Github.passThroughVal, clamp_of_range ht0 ht1, clamp_of_range hr0 hr1,
    clamp_of_range ha0 ha1]

/-- Witness for C7: a valid in-range input passes through exactly, extra keys
dropped, no provider invoked. -/
theorem passthrough_exact_witness :
    Github.analyze_github cfgNoCred oraNone d65
      [("Technical_Skills", .vint 85), ("Reputation", .vint 72), ("Activity", .vint 90),
       ("url", .vstr "u")] =
      ([("Technical_Skills", .vint 85), ("Reputation", .vint 72), ("Activity", .vint 90)], []) :=
  passthrough_exact cfgNoCred oraNone d65 _ 85 72 90
    rfl (by decide) (by decide) rfl (by decide) (by decide) rfl (by decide) (by decide)

/-- Normalization of one pass-through field as claim C10 words it: a
non-numeric value becomes 50, a numeric value is truncated to `int` and
clamped into [0, 100]. -/
def specFieldNorm : PyVal → ℤ
  | .vint n => max 0 (min 100 n)
  | .vfloat q => max 0 (min 100 (pyTrunc q))
  | .vbool b => max 0 (min 100 (if b then 1 else 0))
  | _ => 50

/-- C10: whenever the three required keys are present — whatever their values
and whatever the mock flag — `analyze_github` takes the pass-through branch:
no provider call, no mock consultation (the result does not depend on the
draw), and the output is exactly the three normalized fields, every other key
dropped. -/
theorem passthrough_branch_unconditional (cfg : Config) (ora : Oracle) (d : GithubDraws)
    (gd : PyDict) (v1 v2 v3 : PyVal)
    (h1 : lookup? gd "Technical_Skills" = some v1)
    (h2 : lookup? gd "Reputation" = some v2)
    (h3 : lookup? gd "Activity" = some v3) :
    Github.analyze_github cfg ora d gd =
      ([("Technical_Skills", .vint (specFieldNorm v1)),
        ("Reputation", .vint (specFieldNorm v2)),
        ("Activity", .vint (specFieldNorm v3))], []) := by
  have hnorm : ∀ v : PyVal, Github.passThroughVal v = specFieldNorm v := by
    intro v
    cases v <;> rfl
  unfold Github.analyze_github
  rw [scoreFields_all_hasKey h1 h2 h3]
  unfold Github.passThrough
  rw [h1, h2, h3]
  simp [hnorm]

/-- Witness for C10: mixed-type values with mock mode on still take the
pass-through branch and normalize field by field. -/
theorem passthrough_branch_unconditional_witness :
    Github.analyze_github cfgMock oraNone d65
      [("Technical_Skills", .vstr "x"), ("Reputation", .vint 150), ("Activity", .vbool true),
       ("extra", .vnone)] =
      ([("Technical_Skills", .vint 50), ("Reputation", .vint 100), ("Activity", .vint 1)], []) := by
  have h := passthrough_branch_unconditional cfgMock oraNone d65
    [("Technical_Skills", .vstr "x"), ("Reputation", .vint 150), ("Activity", .vbool true),
     ("extra", .vnone)]
    (.vstr "x") (.vint 150) (.vbool true) rfl rfl rfl
  rw [h]
  rfl

/-- Counterexample to C5 as stated: with mock mode on, an input that already
carries the three score fields is *not* answered from the mock source — the
pass-through check runs first. -/
theorem mock_not_before_passthrough :
    Github.analyze_github cfgMock oraNone d65 gd0 ≠ (get_mock_github_score d65, []) := by
  intro h
  exact absurd (congrArg (fun p => intScoreOf p.1 "Technical_Skills") h) (by decide)

/-- C5 as amended: with mock mode on *and the pass-through check failing*
(some required field absent), `analyze_github` skips every provider and
returns the mock output immediately. -/
theorem mock_shortcircuit (cfg : Config) (ora : Oracle) (d : GithubDraws) (gd : PyDict)
    (hm : cfg.use_mock = true)
    (hmiss : scoreFields.all (hasKey gd) = false) :
    Github.analyze_github cfg ora d gd = (get_mock_github_score d, []) := by
  simp [Github.analyze_github, hmiss, hm]

/-- Witness for the amended C5. -/
theorem mock_shortcircuit_witness :
    Github.analyze_github cfgMock oraNone d65 [("repos", .vint 12)] =
      (get_mock_github_score d65, []) :=
  mock_shortcircuit cfgMock oraNone d65 [("repos", .vint 12)] rfl rfl

/-- Counterexample to C6 as stated: with mock mode on, the empty resume is
*not* answered with the fixed empty-input result — the mock check runs
first. -/
theorem empty_resume_mock_mode :
    Resume.analyze_resume cfgMock oraNone dRes "" ≠ (Resume.emptyResult, []) := by
  intro h
  exact absurd (congrArg (fun p => strFieldOf p.1 "summary") h) (by decide)

/-- C6 as amended: with mock mode off, the empty resume short-circuits to the
fixed result, with no provider call and no extraction. -/
theorem empty_resume_fixed (cfg : Config) (ora : Oracle) (d : ResumeDraws)
    (hm : cfg.use_mock = false) :
    Resume.analyze_resume cfg ora d "" = (Resume.emptyResult, []) := by
  simp [Resume.analyze_resume, hm]

/-- Witness for the amended C6. -/
theorem empty_resume_fixed_witness :
    Resume.analyze_resume cfgNoCred oraNone dRes "" = (Resume.emptyResult, []) :=
  empty_resume_fixed cfgNoCred oraNone dRes rfl

theorem github_chain_no_creds (ora : Oracle) (d : GithubDraws) :
    Github.tryOpenRouter cfgNoCred ora d [] = (get_mock_github_score d, []) := by
  simp [Github.tryOpenRouter, Github.tryDeepseek, Github.tryOpenAI, Github.afterProviders,
    cfgNoCred]

theorem resume_chain_no_creds (ora : Oracle) (d : ResumeDraws) :
    Resume.tryOpenRouter cfgNoCred ora d [] = (get_mock_resume_score d, []) := by
  simp [Resume.tryOpenRouter, Resume.tryDeepseek, Resume.tryOpenAI, Resume.afterProviders,
    cfgNoCred]

/-- Counterexample to C1 as stated: with no credentials and mock mode off, an
input that already carries the three score fields is answered by the
pass-through branch, not by the mock fallback source. -/
theorem no_creds_not_always_mock :
    (Github.analyze_github cfgNoCred oraNone d65 gd0).1 ≠ get_mock_github_score d65 := by
  intro h
  exact absurd (congrArg (fun m => intScoreOf m "Technical_Skills") h) (by decide)

/-- C1 as amended: with mock mode off and all three credentials absent, both
tasks are total and always return a map whose three required score fields are
integers in [0, 100]; whenever the GitHub input does not already satisfy the
pass-through check the result is exactly the mock output, and whenever the
resume text is non-empty the result is exactly the mock output — with no
provider invoked in either case. -/
theorem no_creds_terminal_guarantee (ora : Oracle) (dg : GithubDraws) (dr : ResumeDraws)
    (gd : PyDict) (s : String) (hg : dg.valid) (hr : dr.valid) :
    wellFormedScores (Github.analyze_github cfgNoCred ora dg gd).1
  ∧ (scoreFields.all (hasKey gd) = false →
      Github.analyze_github cfgNoCred ora dg gd = (get_mock_github_score dg, []))
  ∧ wellFormedScores (Resume.analyze_resume cfgNoCred ora dr s).1
  ∧ (s ≠ "" → Resume.analyze_resume cfgNoCred ora dr s = (get_mock_resume_score dr, [])) := by
  obtain ⟨hg1, hg2, hg3, hg4, hg5, hg6⟩ := hg
  obtain ⟨hr1, hr2, hr3, hr4, hr5, hr6, _, _, _, _⟩ := hr
  have hGmock : scoreFields.all (hasKey gd) = false →
      Github.analyze_github cfgNoCred ora dg gd = (get_mock_github_score dg, []) := by
    intro hmiss
    simp [Github.analyze_github, hmiss, show cfgNoCred.use_mock = false from rfl,
      github_chain_no_creds ora dg]
  have hRmock : s ≠ "" → Resume.analyze_resume cfgNoCred ora dr s = (get_mock_resume_score dr, []) := by
    intro hs
    simp [Resume.analyze_resume, hs, show cfgNoCred.use_mock = false from rfl,
      resume_chain_no_creds ora dr]
  refine ⟨?_, hGmock, ?_, hRmock⟩
  · cases hk : scoreFields.all (hasKey gd) with
    | true =>
      have he : Github.analyze_github cfgNoCred ora dg gd = (Github.passThrough gd, []) := by
        simp [Github.analyze_github, hk]
      rw [he]
      intro f hf
      rcases (by simpa [scoreFields] using hf : f = "Technical_Skills" ∨ f = "Reputation" ∨
          f = "Activity") with rfl | rfl | rfl
      · exact ⟨_, rfl, (passThroughVal_range _).1, (passThroughVal_range _).2⟩
      · exact ⟨_, rfl, (passThroughVal_range _).1, (passThroughVal_range _).2⟩
      · exact ⟨_, rfl, (passThroughVal_range _).1, (passThroughVal_range _).2⟩
    | false =>
      rw [hGmock hk]
      intro f hf
      rcases (by simpa [scoreFields] using hf : f = "Technical_Skills" ∨ f = "Reputation" ∨
          f = "Activity") with rfl | rfl | rfl
      · exact ⟨dg.t, rfl, by omega, by omega⟩
      · exact ⟨dg.r, rfl, by omega, by omega⟩
      · exact ⟨dg.a, rfl, by omega, by omega⟩
  · by_cases hs : s = ""
    · subst hs
      have he : Resume.analyze_resume cfgNoCred ora dr "" = (Resume.emptyResult, []) := by
        simp [Resume.analyze_resume, show cfgNoCred.use_mock = false from rfl]
      rw [he]
      intro f hf
      rcases (by simpa [scoreFields] using hf : f = "Technical_Skills" ∨ f = "Reputation" ∨
          f = "Activity") with rfl | rfl | rfl
      · exact ⟨50, rfl, by omega, by omega⟩
      · exact ⟨50, rfl, by omega, by omega⟩
      · exact ⟨50, rfl, by omega, by omega⟩
    · rw [hRmock hs]
      intro f hf
      rcases (by simpa [scoreFields] using hf : f = "Technical_Skills" ∨ f = "Reputation" ∨
          f = "Activity") with rfl | rfl | rfl
      · exact ⟨dr.t, rfl, by omega, by omega⟩
      · exact ⟨dr.r, rfl, by omega, by omega⟩
      · exact ⟨dr.a, rfl, by omega, by omega⟩

/-- Witness for the amended C1: no credentials, mock off — a field-less
GitHub input and a non-empty resume are both answered by the mock source. -/
theorem no_creds_terminal_guarantee_witness :
    Github.analyze_github cfgNoCred oraNone d65 [("repos", .vint 12)] =
      (get_mock_github_score d65, [])
  ∧ Resume.analyze_resume cfgNoCred oraNone dRes "text" = (get_mock_resume_score dRes, []) := by
  have h := no_creds_terminal_guarantee oraNone d65 dRes [("repos", .vint 12)] "text"
    (by unfold GithubDraws.valid; decide) (by unfold ResumeDraws.valid; decide)
  exact ⟨h.2.1 rfl, h.2.2.2 (by decide)⟩

/-- Raw text whose embedded JSON carries a fractional score value. -/
def resumeFloatInput : String :=
  "\x7b\"Technical_Skills\": 77.5, \"Reputation\": 60, \"Activity\": 70, \"summary\": \"ok\", \"keywords\": []\x7d"

/-- C3 (code bug, resume variant): the resume `process_llm_response` clamps
with `max(0, min(100, v))` and no `int()` conversion, so a fractional JSON
score inside [0, 100] is returned as the float 77.5, not an integer — against
the GitHub variant, the prompt contract and the declared response schema
(`ResumeScore.Technical_Skills : int`). -/
theorem resume_scores_not_integers :
    Resume.process_llm_response dRes resumeFloatInput =
      [("Technical_Skills", .vfloat (mkRat 155 2)), ("Reputation", .vint 60),
       ("Activity", .vint 70), ("summary", .vstr "ok"), ("keywords", .vlist [])] := by
  rfl

/-- Raw text that is valid JSON with six keywords. -/
def sixKeywordInput : String :=
  "\x7b\"a\": 1, \"keywords\": [\"k1\", \"k2\", \"k3\", \"k4\", \"k5\", \"k6\"]\x7d"

/-- Counterexample to C9 as stated: a parsed JSON keyword list is returned
as-is, so six keywords come back and the 0-5 length bound fails. -/
theorem keywords_length_unbounded :
    ¬ (kwLen (Resume.process_llm_response dRes sixKeywordInput) ≤ 5) := by
  decide

theorem lookup_ensure_last (m : PyDict) (k : String) (v0 : PyVal) :
    ∃ v, lookup? (if hasKey m k then m else setKey m k v0) k = some v := by
  by_cases h : hasKey m k = true
  · obtain ⟨v, hv⟩ := exists_lookup_of_hasKey h
    exact ⟨v, by rw [if_pos h, hv]⟩
  · exact ⟨v0, by rw [if_neg h, lookup?_setKey_self]⟩

theorem ensureFields_keywords (m : PyDict) :
    ∃ v, lookup? (Resume.ensureFields m) "keywords" = some v := by
  unfold Resume.ensureFields
  exact lookup_ensure_last _ "keywords" (.vlist [])

theorem resume_clampScore_preserves (m : PyDict) (f k : String) (hk : k ≠ f) (m2 : PyDict)
    (h : Resume.clampScore m f = some m2) : lookup? m2 k = lookup? m k := by
  unfold Resume.clampScore at h
  cases hl : lookup? m f with
  | none =>
    simp only [hl] at h
    cases h
  | some v =>
    simp only [hl] at h
    cases hc : Resume.clampVal v with
    | none => simp [hc] at h
    | some w =>
      simp only [hc, Option.map_some', Option.some.injEq] at h
      subst h
      exact lookup?_setKey_ne _ _ _ _ hk

theorem resume_clampScores_keywords (m m2 : PyDict) (h : Resume.clampScores m = some m2) :
    lookup? m2 "keywords" = lookup? m "keywords" := by
  unfold Resume.clampScores at h
  obtain ⟨m1, h1, h⟩ := Option.bind_eq_some.mp h
  obtain ⟨mm, h2, h3⟩ := Option.bind_eq_some.mp h
  rw [resume_clampScore_preserves _ _ _ (by decide) _ h3,
    resume_clampScore_preserves _ _ _ (by decide) _ h2,
    resume_clampScore_preserves _ _ _ (by decide) _ h1]

theorem mock_resume_keywords (d : ResumeDraws) :
    lookup? (get_mock_resume_score d) "keywords" = some (.vlist (d.skills.map .vstr)) := by
  rfl

theorem resume_post_keywords (d : ResumeDraws) (m : PyDict) :
    ∃ v, lookup?
      (match Resume.clampScores (Resume.ensureFields m) with
        | some r => r
        | none => get_mock_resume_score d) "keywords" = some v := by
  cases hc : Resume.clampScores (Resume.ensureFields m) with
  | some r =>
    obtain ⟨v, hv⟩ := ensureFields_keywords m
    refine ⟨v, ?_⟩
    simp only [hc]
    rw [resume_clampScores_keywords _ _ hc, hv]
  | none =>
    refine ⟨.vlist (d.skills.map .vstr), ?_⟩
    simp only [hc]
    exact mock_resume_keywords d

/-- C9 as amended: the keywords field of the resume extractor output is
always present — it defaults to the empty sequence when extraction finds
none — but neither the 0-5 length bound nor string-ness of its elements is
enforced on values coming from parsed JSON. -/
theorem keywords_always_present (d : ResumeDraws) (s : String) :
    ∃ v, lookup? (Resume.process_llm_response d s) "keywords" = some v := by
  unfold Resume.process_llm_response
  cases hp : pyJsonLoads (extractBraces s) with
  | none =>
    simp only [hp]
    exact resume_post_keywords d (Resume.extract_values_from_text (extractBraces s))
  | some v =>
    cases v with
    | vobj m =>
      simp only [hp]
      exact resume_post_keywords d m
    | vint n => simp only [hp]; exact ⟨_, mock_resume_keywords d⟩
    | vfloat q => simp only [hp]; exact ⟨_, mock_resume_keywords d⟩
    | vbool b => simp only [hp]; exact ⟨_, mock_resume_keywords d⟩
    | vstr s2 => simp only [hp]; exact ⟨_, mock_resume_keywords d⟩
    | vlist xs => simp only [hp]; exact ⟨_, mock_resume_keywords d⟩
    | vnone => simp only [hp]; exact ⟨_, mock_resume_keywords d⟩

theorem head_reverse_eq_getLast (l : List Char) : l.reverse.head? = l.getLast? := by
  cases hl : l.reverse with
  | nil =>
    have : l = [] := by simpa using congrArg List.reverse hl
    simp [this]
  | cons c t =>
    have : l = (c :: t).reverse := by
      have := congrArg List.reverse hl
      simpa using this
    subst this
    simp [List.getLast?_concat]

theorem extractBraces_eq_self (s : String) (hhead : s.data.head? = some '\x7b')
    (hlast : s.data.getLast? = some '\x7d') : extractBraces s = s := by
  obtain ⟨cs, hcs⟩ : ∃ cs, s.data = '\x7b' :: cs := by
    cases hd : s.data with
    | nil => rw [hd] at hhead; cases hhead
    | cons c t =>
      rw [hd] at hhead
      simp only [List.head?_cons, Option.some.injEq] at hhead
      exact ⟨t, by rw [hhead]⟩
  have hmem : '\x7d' ∈ cs := by
    cases hcs2 : cs with
    | nil =>
      rw [hcs, hcs2] at hlast
      exact absurd hlast (by decide)
    | cons c2 t2 =>
      rw [hcs, hcs2, List.getLast?_cons_cons] at hlast
      exact List.mem_of_mem_getLast? (hlast ▸ rfl)
  have hcont : cs.contains '\x7d' = true := List.elem_eq_true_of_mem hmem
  have hf : fromFirstBrace s.data = some s.data := by
    rw [hcs]
    show fromFirstBrace ('\x7b' :: cs) = some ('\x7b' :: cs)
    unfold fromFirstBrace
    simp [hcont, hmem]
  have hu : upToLastClose s.data = s.data := by
    obtain ⟨t, ht⟩ : ∃ t, s.data.reverse = '\x7d' :: t := by
      have hh : s.data.reverse.head? = some '\x7d' := by
        rw [List.head?_reverse]
        exact hlast
      cases hr : s.data.reverse with
      | nil => rw [hr] at hh; cases hh
      | cons c t =>
        rw [hr] at hh
        simp only [List.head?_cons, Option.some.injEq] at hh
        exact ⟨t, by rw [hh]⟩
    unfold upToLastClose
    rw [ht]
    have hdw : List.dropWhile (fun c => c != '\x7d') ('\x7d' :: t) = '\x7d' :: t := by
      simp [List.dropWhile]
    rw [hdw, ← ht, List.reverse_reverse]
  unfold extractBraces
  simp only [hf]
  rw [hu]

theorem github_ensureScores_eq_of_present (m : PyDict)
    (h1 : hasKey m "Technical_Skills" = true) (h2 : hasKey m "Reputation" = true)
    (h3 : hasKey m "Activity" = true) : Github.ensureScores m = m := by
  simp [Github.ensureScores, h1, h2, h3]

theorem github_clampScores_int_fields (m : PyDict) (t r a : ℤ)
    (ht : lookup? m "Technical_Skills" = some (.vint t))
    (hr : lookup? m "Reputation" = some (.vint r))
    (ha : lookup? m "Activity" = some (.vint a)) :
    Github.clampScores m =
      some (setKey (setKey (setKey m "Technical_Skills" (.vint (clamp t))) "Reputation"
        (.vint (clamp r))) "Activity" (.vint (clamp a))) := by
  have h1 : Github.clampScore m "Technical_Skills" =
      some (setKey m "Technical_Skills" (.vint (clamp t))) := by
    simp [Github.clampScore, ht, Github.coerceScore]
  have hr1 : lookup? (setKey m "Technical_Skills" (.vint (clamp t))) "Reputation" =
      some (.vint r) := by
    rw [lookup?_setKey_ne _ _ _ _ (by decide)]
    exact hr
  have h2 : Github.clampScore (setKey m "Technical_Skills" (.vint (clamp t))) "Reputation" =
      some (setKey (setKey m "Technical_Skills" (.vint (clamp t))) "Reputation"
        (.vint (clamp r))) := by
    simp [Github.clampScore, hr1, Github.coerceScore]
  have ha1 : lookup? (setKey (setKey m "Technical_Skills" (.vint (clamp t))) "Reputation"
      (.vint (clamp r))) "Activity" = some (.vint a) := by
    rw [lookup?_setKey_ne _ _ _ _ (by decide), lookup?_setKey_ne _ _ _ _ (by decide)]
    exact ha
  have h3 : Github.clampScore (setKey (setKey m "Technical_Skills" (.vint (clamp t)))
      "Reputation" (.vint (clamp r))) "Activity" =
      some (setKey (setKey (setKey m "Technical_Skills" (.vint (clamp t))) "Reputation"
        (.vint (clamp r))) "Activity" (.vint (clamp a))) := by
    simp [Github.clampScore, ha1, Github.coerceScore]
  simp [Github.clampScores, h1, h2, h3]

/-- C8: a raw text that is already valid JSON for the required schema — an
object, written from its opening to its closing brace, with an integer value
under every required field — is returned by the GitHub extractor with exactly
the input object's fields, unchanged except that each required score is
clamped into [0, 100]. -/
theorem extractor_idempotent_on_json (s : String) (m : PyDict) (d : GithubDraws) (t r a : ℤ)
    (hhead : s.data.head? = some '\x7b') (hlast : s.data.getLast? = some '\x7d')
    (hjson : pyJsonLoads s = some (.vobj m))
    (ht : lookup? m "Technical_Skills" = some (.vint t))
    (hr : lookup? m "Reputation" = some (.vint r))
    (ha : lookup? m "Activity" = some (.vint a)) :
    Github.process_llm_response d s =
      setKey (setKey (setKey m "Technical_Skills" (.vint (clamp t))) "Reputation"
        (.vint (clamp r))) "Activity" (.vint (clamp a)) := by
  unfold Github.process_llm_response
  rw [extractBraces_eq_self s hhead hlast]
  simp only [hjson, github_ensureScores_eq_of_present m (hasKey_of_lookup ht)
    (hasKey_of_lookup hr) (hasKey_of_lookup ha), github_clampScores_int_fields m t r a ht hr ha]

/-- JSON input for the C8 witness: three integer scores, one out of range,
and one extra field. -/
def jsonScoresInput : String :=
  "\x7b\"Technical_Skills\": 85, \"Reputation\": 90, \"Activity\": 120, \"note\": \"x\"\x7d"

/-- Parse of `jsonScoresInput`. -/
def jsonScoresDict : PyDict :=
  [("Technical_Skills", .vint 85), ("Reputation", .vint 90), ("Activity", .vint 120),
   ("note", .vstr "x")]

/-- Witness for C8: the concrete JSON object comes back unchanged except for
the clamp of the out-of-range Activity score. -/
theorem extractor_idempotent_on_json_witness :
    Github.process_llm_response d65 jsonScoresInput =
      setKey (setKey (setKey jsonScoresDict "Technical_Skills" (.vint (clamp 85))) "Reputation"
        (.vint (clamp 90))) "Activity" (.vint (clamp 120)) :=
  extractor_idempotent_on_json jsonScoresInput jsonScoresDict d65 85 90 120
    rfl rfl rfl rfl rfl rfl

end TrustZ
